import Mathlib

/-!
Verification development for the Whatsup-CV2 photo-orientation script
(`whatsup.py`).  The core search logic is shallowly embedded: pure Python
functions become Lean functions, the two `while` loops become structural
recursions on their (finite, constant) counters, and the OpenCV primitives
that the spec declares out of scope (decoding, resize, blur, mean,
contrast scaling, grayscale conversion, histogram equalization, and the
cascade classifier itself) are modelled as opaque parameters at their
interface boundary.  Python's `False` sentinel versus an `int` result is
modelled by an explicit sum type, and Python's banker's rounding `round`
by `pyRound`.
-/

namespace Whatsup

/-- An image: a rectangular single-channel pixel grid with height `h` and
width `w`, pixel intensities as naturals (cv2 matrices of uint8).  A cv2
matrix has no out-of-bounds cells, so pixels are indexed by `Fin`. -/
structure Image where
  h : Nat
  w : Nat
  pix : Fin h → Fin w → Nat

/-- Read a pixel at arbitrary natural coordinates, returning 0 out of
bounds.  Convenience accessor for stating theorems without `Fin` fuss. -/
def Image.get (img : Image) (i j : Nat) : Nat :=
  if hb : i < img.h ∧ j < img.w then img.pix ⟨i, hb.1⟩ ⟨j, hb.2⟩ else 0

/-- Embedding of `cv2.rotate(image, cv2.ROTATE_90_CLOCKWISE)` (line 109):
the left column of the input becomes the top row of the output, so the
output has dimensions `w × h` and `out[i][j] = in[h-1-j][i]`. -/
def rotateCW (img : Image) : Image :=
  ⟨img.w, img.h, fun i j =>
    img.pix ⟨img.h - 1 - j.val, by have hj := j.isLt; omega⟩ ⟨i.val, i.isLt⟩⟩

/-- Iterated clockwise rotation: `rotIter n img` applies `rotateCW`
`n` times.  Defined so that `rotIter (n+1) img = rotIter n (rotateCW img)`,
matching the order in which the search loop rotates. -/
def rotIter : Nat → Image → Image
  | 0, img => img
  | n + 1, img => rotIter n (rotateCW img)

/-- Embedding of a Python/NumPy slice `image[r0:r1, c0:c1]`: slice bounds
are clamped to the image dimensions, exactly as NumPy clamps slices. -/
def crop (img : Image) (r0 r1 c0 c1 : Nat) : Image :=
  ⟨min r1 img.h - min r0 (min r1 img.h),
   min c1 img.w - min c0 (min c1 img.w),
   fun i j =>
     img.pix ⟨min r0 (min r1 img.h) + i.val, by have hi := i.isLt; omega⟩
             ⟨min c0 (min c1 img.w) + j.val, by have hj := j.isLt; omega⟩⟩

/-- Python's built-in `round` applied to the exact rational `n / d`:
round half to even (banker's rounding).  Used for `round(image_h / counter)`
(lines 222-223) and the band bounds in `detect_brightest_side`
(lines 145-148). -/
def pyRound (n d : Nat) : Nat :=
  if 2 * (n % d) < d then n / d
  else if d < 2 * (n % d) then n / d + 1
  else if n / d % 2 = 0 then n / d else n / d + 1

/-- Result of `detect_faces`: Python returns either an `int` number of
degrees (line 105) or the distinct object `False` (line 115).  The Python
values `0` and `False` compare equal with `==` but are different objects,
which the sum type reflects: `rotation 0 ≠ noResult`. -/
inductive DetectResult where
  | rotation : Nat → DetectResult
  | noResult : DetectResult
deriving DecidableEq

/-- Embedding of the Python test `results is not False` (line 235): an
identity test against the `False` sentinel, true for every `int` result
including `0`. -/
def resultIsNotFalse : DetectResult → Bool
  | DetectResult.rotation _ => true
  | DetectResult.noResult => false

/-- The external cascade classifier (`cc.detectMultiScale`, line 86),
specified only at its interface boundary: given the image, the minimum
and maximum side lengths, and whether the FIND_BIGGEST_OBJECT flag is
set, it returns the number of detections (`len(faces_detected)`; only
presence or absence matters to the core).  The fixed arguments
`scaleFactor = 1.3`, `minNeighbors = 6` and CASCADE_DO_CANNY_PRUNING are
absorbed into the abstract function. -/
abbrev Cascade := Image → Nat → Nat → Bool → Nat

/-- The four cascade profile names of `CASCADES_TO_USE` (line 54). -/
inductive CascadeName where
  | profileface : CascadeName
  | fullbody : CascadeName
  | frontalface_alt : CascadeName
  | frontalface_default : CascadeName
deriving DecidableEq

/-- Embedding of the tuple `CASCADES_TO_USE` (line 54), in source order:
profile face, full body, frontal face alt, frontal face default. -/
def CASCADES_TO_USE : List CascadeName :=
  [CascadeName.profileface, CascadeName.fullbody,
   CascadeName.frontalface_alt, CascadeName.frontalface_default]

/-- The OpenCV primitives used by the core, all declared out of scope by
the spec and therefore modelled as opaque functions at their interface
boundary.  `resize img w h` is `cv2.resize(img, (w, h), INTER_CUBIC)`
(dsize is width first); `gaussianBlur` is `cv2.GaussianBlur(·, (5,5),
BORDER_DEFAULT)`; `mean` is `cv2.mean(·)[0]` (a float, modelled as ℚ);
`convertScaleAbs` is `cv2.convertScaleAbs(·, alpha=1.25, beta=0)`;
`cvtColorGray` is `cv2.cvtColor(·, COLOR_BGR2GRAY)`; `equalizeHist` is
`cv2.equalizeHist`. -/
structure CV where
  resize : Image → Nat → Nat → Image
  gaussianBlur : Image → Image
  mean : Image → ℚ
  convertScaleAbs : Image → Image
  cvtColorGray : Image → Image
  equalizeHist : Image → Image

/-- The preprocessing pipeline of `try_detect` (lines 186-197): contrast
scaling, grayscale conversion, histogram equalization, applied in source
order to the decoded image. -/
def preprocess (cv : CV) (image : Image) : Image :=
  cv.equalizeHist (cv.cvtColorGray (cv.convertScaleAbs image))

/-- The rotation loop of `detect_faces` (lines 82-115), by structural
recursion on the remaining fuel `rotation_maximum - counter`.  Each step
calls the detector once; on a detection it returns `counter * 90`
(lines 103-105), otherwise it rotates the image 90 degrees clockwise and
increments the counter (lines 109-113).  The second component counts the
detector invocations made (instrumentation for the resource claims; it
does not influence the result). -/
def detectLoop (cc : Cascade) (b : Bool) (mn mx : Nat) :
    Nat → Nat → Image → DetectResult × Nat
  | 0, _, _ => (DetectResult.noResult, 0)
  | fuel + 1, counter, image =>
    if 0 < cc image mn mx b then
      (DetectResult.rotation (counter * 90), 1)
    else
      let rest := detectLoop cc b mn mx fuel (counter + 1) (rotateCW image)
      (rest.1, rest.2 + 1)

/-- Embedding of `detect_faces` (lines 58-115).  The size bounds are
`side = sqrt(image.size)` with `image.size = h * w` for the grayscale
image, `min_length = int(side / 20)`, `max_length = int(side / 2)`
(lines 66-69) — for naturals this is `Nat.sqrt (h*w) / 20` and
`Nat.sqrt (h*w) / 2`.  The `filename`/`extension` parameters of the
source feed only the disabled debug branch (`debug = False`, lines
90-99) and are omitted.  The rotation budget is `rotation_maximum = 4`
starting from `counter = 0` (lines 62-63). -/
def detect_faces (cc : Cascade) (b : Bool) (image : Image) : DetectResult × Nat :=
  detectLoop cc b (Nat.sqrt (image.h * image.w) / 20)
    (Nat.sqrt (image.h * image.w) / 2) 4 0 image

/-- The four named edge bands of `detect_brightest_side` (the keys of the
`chunks` dict, lines 145-148). -/
inductive Side where
  | top : Side
  | left : Side
  | bottom : Side
  | right : Side
deriving DecidableEq

/-- Embedding of `rotation_map = {top: 0, left: 90, bottom: 180,
right: 270}` (line 136). -/
def rotationMap : Side → Nat
  | Side.top => 0
  | Side.left => 90
  | Side.bottom => 180
  | Side.right => 270

/-- The band slices of `detect_brightest_side` (lines 145-148), with
`ratio = 3` and `boundary = ratio - 1 = 2` (lines 123-124):
top is `image[0:round(h/3), 0:w]`, left is `image[0:h, 0:round(w/3)]`,
bottom is `image[round(2*h/3):h, 0:w]`, right is
`image[0:h, round(2*w/3):w]`. -/
def chunkOf (img : Image) : Side → Image
  | Side.top => crop img 0 (pyRound img.h 3) 0 img.w
  | Side.left => crop img 0 img.h 0 (pyRound img.w 3)
  | Side.bottom => crop img (pyRound (2 * img.h) 3) img.h 0 img.w
  | Side.right => crop img 0 img.h (pyRound (2 * img.w) 3) img.w

/-- One entry of the `samples` dict (line 154): the mean intensity of the
band after downsampling to `(5, 5)` with `cv2.resize` and smoothing with
a `(5, 5)` `cv2.GaussianBlur`. -/
def sampleOf (cv : CV) (img : Image) (s : Side) : ℚ :=
  cv.mean (cv.gaussianBlur (cv.resize (chunkOf img s) 5 5))

/-- One comparison step of Python's `max(samples, key=samples.get)`
(line 158): the running maximum is replaced only on a strictly greater
key, so the first maximal element in iteration order wins. -/
def pickBrighter (acc x : Side × ℚ) : Side × ℚ :=
  if x.2 > acc.2 then x else acc

/-- Insertion order of the `chunks`/`samples` dicts (lines 145-148),
which is the iteration order of `max(samples, key=samples.get)`. -/
def sideOrder : List Side :=
  [Side.top, Side.left, Side.bottom, Side.right]

/-- The `max_side = max(samples, key=samples.get)` computation of
`detect_brightest_side` (line 158): fold Python's max comparison over
the samples in dict insertion order. -/
def brightestSide (cv : CV) (image : Image) : Side :=
  match sideOrder.map (fun s => (s, sampleOf cv image s)) with
  | [] => Side.top
  | first :: rest => (rest.foldl pickBrighter first).1

/-- Embedding of `detect_brightest_side` (lines 119-162): look the
winning band up in `rotation_map` (line 162).  (The source's unused
`filename`/`extension` parameters are omitted.) -/
def detect_brightest_side (cv : CV) (image : Image) : Nat :=
  rotationMap (brightestSide cv image)

/-- The scale loop of `try_detect` (lines 214-238), by structural
recursion on the counter, which starts at 2 and runs while
`counter >= count_minimum = 1` (lines 205-206, 214, 238).  Each
iteration resizes the preprocessed image to
`(round(w/counter), round(h/counter))` (lines 218-227), runs
`detect_faces`, and returns its result if it `is not False` (lines
231-236).  The second component again counts detector invocations. -/
def scaleLoop (cv : CV) (cc : Cascade) (b : Bool) (image : Image) :
    Nat → DetectResult × Nat
  | 0 => (DetectResult.noResult, 0)
  | counter + 1 =>
    let image_resized := cv.resize image
      (pyRound image.w (counter + 1)) (pyRound image.h (counter + 1))
    let results := detect_faces cc b image_resized
    if resultIsNotFalse results.1 then results
    else
      let rest := scaleLoop cv cc b image counter
      (rest.1, results.2 + rest.2)

/-- The cascade loop of `try_detect` (lines 201-238): for each cascade
name in `CASCADES_TO_USE` order, build the classifier and run the scale
loop; a non-`False` result returns immediately from the whole function
(line 236). -/
def profileLoop (cv : CV) (cas : CascadeName → Cascade) (b : Bool)
    (image : Image) : List CascadeName → Option Nat × Nat
  | [] => (none, 0)
  | name :: rest =>
    let res := scaleLoop cv (cas name) b image 2
    match res.1 with
    | DetectResult.rotation n => (some n, res.2)
    | DetectResult.noResult =>
      let r2 := profileLoop cv cas b image rest
      (r2.1, res.2 + r2.2)

/-- Embedding of `try_detect` (lines 166-242).  The decoded input image
is the parameter `img` (decoding is external); it is preprocessed
(lines 186-197), searched over all cascades and scales, and if no face
is found the *preprocessed* image is handed to `detect_brightest_side`
(line 242).  The second component counts detector invocations. -/
def try_detect (cv : CV) (cas : CascadeName → Cascade) (b : Bool)
    (img : Image) : Nat × Nat :=
  let image := preprocess cv img
  let r := profileLoop cv cas b image CASCADES_TO_USE
  match r.1 with
  | some n => (n, r.2)
  | none => (detect_brightest_side cv image, r.2)

/-- Convert a `detect_faces` result to an option (spec-side helper for
stating the flat search order). -/
def toOption : DetectResult → Option Nat
  | DetectResult.rotation n => some n
  | DetectResult.noResult => none

/-- The flat priority order of detection attempts as the spec words it
(section 4.3): for each profile in priority order, scale counter 2
(half resolution) then 1 (full resolution). -/
def attemptOrder : List (CascadeName × Nat) :=
  [(CascadeName.profileface, 2), (CascadeName.profileface, 1),
   (CascadeName.fullbody, 2), (CascadeName.fullbody, 1),
   (CascadeName.frontalface_alt, 2), (CascadeName.frontalface_alt, 1),
   (CascadeName.frontalface_default, 2), (CascadeName.frontalface_default, 1)]

/-- Spec-side reformulation of the search (spec sections 4.3 and 2):
take the first successful `detect_faces` result over the flat
profile-then-scale attempt list, falling back to the brightness
heuristic.  Compared against the looping implementation `try_detect`. -/
def try_detect_spec (cv : CV) (cas : CascadeName → Cascade) (b : Bool)
    (img : Image) : Nat :=
  let image := preprocess cv img
  match attemptOrder.findSome? (fun pc =>
      toOption (detect_faces (cas pc.1) b
        (cv.resize image (pyRound image.w pc.2) (pyRound image.h pc.2))).1) with
  | some n => n
  | none => detect_brightest_side cv image

/-- Outcome of the top-level script body (lines 276-294): a usage error
(prints the USAGE line and calls `sys.exit(-1)`, lines 278-280), a
missing-file error (prints the not-found message and calls
`sys.exit(-1)`, lines 284-286), or the printed rotation answer
(lines 290-294). -/
inductive MainOutcome (A : Type) where
  | usageError : MainOutcome A
  | fileNotFound : A → MainOutcome A
  | output : Nat → MainOutcome A
deriving DecidableEq

/-- Embedding of the script's top level (lines 276-294) over an abstract
argument type: if `len(sys.argv) != 2` report a usage error; else if
`os.path.isfile(sys.argv[-1])` fails report file-not-found; else invoke
the core (`int(try_detect(True))`, abstracted as `core`) and print its
answer. -/
def main_script {A : Type} (argv : List A) (isFile : A → Bool)
    (core : A → Nat) : MainOutcome A :=
  match argv with
  | [_, p] =>
    if isFile p then MainOutcome.output (core p) else MainOutcome.fileNotFound p
  | _ => MainOutcome.usageError

/-- Process exit status of each script outcome: `sys.exit(-1)` for the
two error branches (a non-zero process status), 0 on normal completion. -/
def exitCode {A : Type} : MainOutcome A → Int
  | MainOutcome.usageError => -1
  | MainOutcome.fileNotFound _ => -1
  | MainOutcome.output _ => 0

/-- Concrete instance of the external primitives, used to evaluate the
embedding at concrete inputs: resize and blur leave the image alone and
the mean samples the top-left pixel. -/
def cvId : CV :=
  ⟨fun im _ _ => im, fun im => im, fun im => (im.get 0 0 : ℚ),
   fun im => im, fun im => im, fun im => im⟩

/-- Concrete instance whose histogram equalization blacks the image out:
exhibits that the fallback sees the preprocessed copy, not the original. -/
def cvDark : CV :=
  { cvId with equalizeHist := fun im => ⟨im.h, im.w, fun _ _ => 0⟩ }

/-- A cascade table that never detects anything (the stubbed detector of
the exhaustion property). -/
def casStub : CascadeName → Cascade := fun _ _ _ _ _ => 0

/-- A cascade table that always reports one detection. -/
def casFire : CascadeName → Cascade := fun _ _ _ _ _ => 1

/-- A uniformly bright 3 × 3 image (all pixels 5). -/
def imgUniform : Image := ⟨3, 3, fun _ _ => 5⟩

/-- A 3 × 3 image whose bottom row is bright (9) and the rest dark. -/
def imgBottomBright : Image :=
  ⟨3, 3, fun i _ => if i.val = 2 then 9 else 0⟩

/-- A 2 × 2 image with a single bright pixel at the top-left corner. -/
def imgCorner : Image :=
  ⟨2, 2, fun i j => if i.val = 0 ∧ j.val = 0 then 9 else 0⟩

/-- A detector that fires exactly when the bottom-right pixel is bright:
on `imgCorner` this happens only after exactly two clockwise rotations. -/
def ccCorner : Cascade := fun im _ _ _ => if im.get 1 1 = 9 then 1 else 0

/-- A detector that never fires (single-cascade form). -/
def ccNever : Cascade := fun _ _ _ _ => 0

end Whatsup

namespace Whatsup

/-! ### Helper lemmas about images and rotation -/

theorem Image.ext_pix (a b : Image) (hh : a.h = b.h) (hw : a.w = b.w)
    (hp : ∀ i j, a.get i j = b.get i j) : a = b := by
  obtain ⟨ha, wa, pa⟩ := a
  obtain ⟨hb, wb, pb⟩ := b
  dsimp at hh hw
  subst hh; subst hw
  have : pa = pb := by
    funext i j
    have h := hp i.val j.val
    simp only [Image.get, i.isLt, j.isLt, and_self, dif_pos, Fin.eta] at h
    exact h
  rw [this]

theorem rotateCW_h (img : Image) : (rotateCW img).h = img.w := rfl

theorem rotateCW_w (img : Image) : (rotateCW img).w = img.h := rfl

theorem rotateCW_get (img : Image) (i j : Nat) :
    (rotateCW img).get i j =
      if i < img.w ∧ j < img.h then img.get (img.h - 1 - j) i else 0 := by
  by_cases hb : i < img.w ∧ j < img.h
  · have h1 : img.h - 1 - j < img.h ∧ i < img.w := ⟨by omega, hb.1⟩
    rw [if_pos hb]
    simp only [Image.get, rotateCW_h, rotateCW_w, dif_pos hb, dif_pos h1]
    rfl
  · rw [if_neg hb]
    simp only [Image.get, rotateCW_h, rotateCW_w, dif_neg hb]

theorem rotateCW_four (img : Image) :
    rotateCW (rotateCW (rotateCW (rotateCW img))) = img := by
  apply Image.ext_pix
  · rfl
  · rfl
  · intro i j
    rw [rotateCW_get, rotateCW_get, rotateCW_get, rotateCW_get]
    simp only [rotateCW_h, rotateCW_w]
    by_cases hi : i < img.h
    · by_cases hj : j < img.w
      · have e1 : img.h - 1 - (img.h - 1 - i) = i := by omega
        have e2 : img.w - 1 - (img.w - 1 - j) = j := by omega
        have b1 : img.h - 1 - i < img.h := by omega
        have b2 : img.w - 1 - j < img.w := by omega
        simp only [hi, hj, and_self, if_pos, b1, b2, e1, e2]
      · have hc : ¬ (i < img.h ∧ j < img.w) := by omega
        rw [if_neg hc]
        simp only [Image.get, dif_neg hc]
    · have hc : ¬ (i < img.h ∧ j < img.w) := by omega
      rw [if_neg hc]
      simp only [Image.get, dif_neg hc]

theorem rotIter_succ_comm (n : Nat) (img : Image) :
    rotIter (n + 1) img = rotateCW (rotIter n img) := by
  induction n generalizing img with
  | zero => rfl
  | succ m ih =>
    show rotIter (m + 1) (rotateCW img) = rotateCW (rotIter (m + 1) img)
    rw [ih (rotateCW img)]
    rfl

theorem rotIter_add (a b : Nat) (img : Image) :
    rotIter (a + b) img = rotIter a (rotIter b img) := by
  induction b generalizing img with
  | zero => rfl
  | succ m ih =>
    have h1 : a + (m + 1) = (a + m) + 1 := by omega
    calc rotIter (a + (m + 1)) img
        = rotIter ((a + m) + 1) img := by rw [h1]
      _ = rotateCW (rotIter (a + m) img) := rotIter_succ_comm _ _
      _ = rotateCW (rotIter a (rotIter m img)) := by rw [ih]
      _ = rotIter (a + 1) (rotIter m img) := (rotIter_succ_comm _ _).symm
      _ = rotIter a (rotateCW (rotIter m img)) := rfl
      _ = rotIter a (rotIter (m + 1) img) := by rw [← rotIter_succ_comm]

theorem rotIter_four (img : Image) : rotIter 4 img = img := by
  show rotateCW (rotateCW (rotateCW (rotateCW img))) = img
  exact rotateCW_four img

theorem rotIter_mod (m : Nat) (img : Image) :
    rotIter m img = rotIter (m % 4) img := by
  induction m using Nat.strong_induction_on with
  | _ m ih =>
    by_cases hm : m < 4
    · rw [Nat.mod_eq_of_lt hm]
    · have h4 : m = (m - 4) + 4 := by omega
      rw [h4, rotIter_add, rotIter_four, ih (m - 4) (by omega)]
      congr 1
      omega

theorem rotateCW_size (img : Image) :
    (rotateCW img).h * (rotateCW img).w = img.h * img.w := by
  rw [rotateCW_h, rotateCW_w, Nat.mul_comm]

theorem rotIter_size (m : Nat) (img : Image) :
    (rotIter m img).h * (rotIter m img).w = img.h * img.w := by
  induction m generalizing img with
  | zero => rfl
  | succ n ih =>
    show (rotIter n (rotateCW img)).h * (rotIter n (rotateCW img)).w = _
    rw [ih (rotateCW img), rotateCW_size]

end Whatsup

namespace Whatsup

/-! ### Characterization of the rotation search loop -/

theorem detectLoop_firstSuccess (cc : Cascade) (b : Bool) (mn mx : Nat) :
    ∀ fuel counter image j, j < fuel →
      (∀ i, i < j → cc (rotIter i image) mn mx b = 0) →
      0 < cc (rotIter j image) mn mx b →
      detectLoop cc b mn mx fuel counter image =
        (DetectResult.rotation ((counter + j) * 90), j + 1) := by
  intro fuel
  induction fuel with
  | zero => intro counter image j hj; omega
  | succ f ih =>
    intro counter image j hj hfail hsucc
    match j with
    | 0 =>
      have h0 : 0 < cc image mn mx b := hsucc
      simp only [detectLoop, if_pos h0, Nat.add_zero]
    | j' + 1 =>
      have h0 : cc image mn mx b = 0 := hfail 0 (by omega)
      have hn : ¬ 0 < cc image mn mx b := by omega
      have hfail' : ∀ i, i < j' → cc (rotIter i (rotateCW image)) mn mx b = 0 := by
        intro i hi
        exact hfail (i + 1) (by omega)
      have hsucc' : 0 < cc (rotIter j' (rotateCW image)) mn mx b := hsucc
      have hrec := ih (counter + 1) (rotateCW image) j' (by omega) hfail' hsucc'
      simp only [detectLoop, if_neg hn, hrec]
      have he : counter + 1 + j' = counter + (j' + 1) := by omega
      rw [he]

theorem detectLoop_allFail (cc : Cascade) (b : Bool) (mn mx : Nat) :
    ∀ fuel counter image,
      (∀ i, i < fuel → cc (rotIter i image) mn mx b = 0) →
      detectLoop cc b mn mx fuel counter image = (DetectResult.noResult, fuel) := by
  intro fuel
  induction fuel with
  | zero => intro counter image _; rfl
  | succ f ih =>
    intro counter image hfail
    have h0 : cc image mn mx b = 0 := hfail 0 (by omega)
    have hn : ¬ 0 < cc image mn mx b := by omega
    have hrec := ih (counter + 1) (rotateCW image)
      (fun i hi => hfail (i + 1) (by omega))
    simp only [detectLoop, if_neg hn, hrec]

theorem detectLoop_rotation (cc : Cascade) (b : Bool) (mn mx : Nat) :
    ∀ fuel counter image r cnt,
      detectLoop cc b mn mx fuel counter image = (DetectResult.rotation r, cnt) →
      ∃ t, t < fuel ∧ r = (counter + t) * 90 ∧ cnt = t + 1 ∧
        0 < cc (rotIter t image) mn mx b ∧
        (∀ i, i < t → cc (rotIter i image) mn mx b = 0) := by
  intro fuel
  induction fuel with
  | zero =>
    intro counter image r cnt h
    simp [detectLoop] at h
  | succ f ih =>
    intro counter image r cnt h
    by_cases hp : 0 < cc image mn mx b
    · simp only [detectLoop, if_pos hp, Prod.mk.injEq, DetectResult.rotation.injEq] at h
      exact ⟨0, by omega, by omega, by omega, hp, by omega⟩
    · simp only [detectLoop, if_neg hp, Prod.mk.injEq] at h
      obtain ⟨h1, h2⟩ := h
      obtain ⟨t, ht, hr, hc, hpos, hfail⟩ :=
        ih (counter + 1) (rotateCW image) r
          (detectLoop cc b mn mx f (counter + 1) (rotateCW image)).2
          (Prod.ext h1 rfl)
      refine ⟨t + 1, by omega, by omega, by omega, hpos, ?_⟩
      intro i hi
      match i with
      | 0 => show cc image mn mx b = 0; omega
      | i' + 1 => exact hfail i' (by omega)

end Whatsup

namespace Whatsup

/-! ### Counting and exhaustion lemmas for the nested search -/

theorem detectLoop_stub (cc : Cascade) (b : Bool) (mn mx : Nat)
    (h : ∀ im, cc im mn mx b = 0) :
    ∀ fuel counter image,
      detectLoop cc b mn mx fuel counter image = (DetectResult.noResult, fuel) := by
  intro fuel
  induction fuel with
  | zero => intro counter image; rfl
  | succ f ih =>
    intro counter image
    have hn : ¬ 0 < cc image mn mx b := by
      rw [h image]; omega
    simp only [detectLoop, if_neg hn, ih (counter + 1) (rotateCW image)]

theorem detectLoop_count_le (cc : Cascade) (b : Bool) (mn mx : Nat) :
    ∀ fuel counter image, (detectLoop cc b mn mx fuel counter image).2 ≤ fuel := by
  intro fuel
  induction fuel with
  | zero => intro counter image; simp [detectLoop]
  | succ f ih =>
    intro counter image
    by_cases hp : 0 < cc image mn mx b
    · simp only [detectLoop, if_pos hp]
      omega
    · simp only [detectLoop, if_neg hp]
      have := ih (counter + 1) (rotateCW image)
      omega

theorem detect_faces_count_le (cc : Cascade) (b : Bool) (image : Image) :
    (detect_faces cc b image).2 ≤ 4 :=
  detectLoop_count_le cc b _ _ 4 0 image

theorem detect_faces_stub (cc : Cascade) (b : Bool) (image : Image)
    (h : ∀ im mn mx bb, cc im mn mx bb = 0) :
    detect_faces cc b image = (DetectResult.noResult, 4) :=
  detectLoop_stub cc b _ _ (fun im => h im _ _ b) 4 0 image

theorem scaleLoop_stub (cv : CV) (cc : Cascade) (b : Bool) (image : Image)
    (h : ∀ im mn mx bb, cc im mn mx bb = 0) :
    ∀ c, scaleLoop cv cc b image c = (DetectResult.noResult, 4 * c) := by
  intro c
  induction c with
  | zero => rfl
  | succ m ih =>
    simp only [scaleLoop, detect_faces_stub _ _ _ h, resultIsNotFalse,
      Bool.false_eq_true, if_false, ih]
    have he : 4 + 4 * m = 4 * (m + 1) := by omega
    rw [he]

theorem scaleLoop_count_le (cv : CV) (cc : Cascade) (b : Bool) (image : Image) :
    ∀ c, (scaleLoop cv cc b image c).2 ≤ 4 * c := by
  intro c
  induction c with
  | zero => simp [scaleLoop]
  | succ m ih =>
    simp only [scaleLoop]
    split
    · have := detect_faces_count_le cc b
        (cv.resize image (pyRound image.w (m + 1)) (pyRound image.h (m + 1)))
      omega
    · have := detect_faces_count_le cc b
        (cv.resize image (pyRound image.w (m + 1)) (pyRound image.h (m + 1)))
      omega

theorem profileLoop_stub (cv : CV) (cas : CascadeName → Cascade) (b : Bool)
    (image : Image) (h : ∀ p im mn mx bb, cas p im mn mx bb = 0) :
    ∀ l : List CascadeName,
      profileLoop cv cas b image l = (none, 8 * l.length) := by
  intro l
  induction l with
  | nil => rfl
  | cons name rest ih =>
    simp only [profileLoop, scaleLoop_stub cv (cas name) b image (h name), ih]
    have he : 4 * 2 + 8 * rest.length = 8 * (rest.length + 1) := by omega
    rw [List.length_cons, he]

theorem profileLoop_count_le (cv : CV) (cas : CascadeName → Cascade) (b : Bool)
    (image : Image) :
    ∀ l : List CascadeName, (profileLoop cv cas b image l).2 ≤ 8 * l.length := by
  intro l
  induction l with
  | nil => simp [profileLoop]
  | cons name rest ih =>
    have hs := scaleLoop_count_le cv (cas name) b image 2
    simp only [profileLoop]
    split
    · simp only [List.length_cons]
      omega
    · simp only [List.length_cons]
      omega

theorem try_detect_count (cv : CV) (cas : CascadeName → Cascade) (b : Bool)
    (img : Image) :
    (try_detect cv cas b img).2 =
      (profileLoop cv cas b (preprocess cv img) CASCADES_TO_USE).2 := by
  simp only [try_detect]
  rcases h : (profileLoop cv cas b (preprocess cv img) CASCADES_TO_USE).1 with _ | n <;>
    simp [h]

/-! ### The scale and profile loops as flat first-success searches -/

/-- The descending scale counters visited by the scale loop started at
`c`: `[c, c-1, ..., 1]`. -/
def scalesList : Nat → List Nat
  | 0 => []
  | n + 1 => (n + 1) :: scalesList n

theorem scaleLoop_fst (cv : CV) (cc : Cascade) (b : Bool) (image : Image) :
    ∀ c, toOption (scaleLoop cv cc b image c).1 =
      (scalesList c).findSome? (fun k =>
        toOption (detect_faces cc b
          (cv.resize image (pyRound image.w k) (pyRound image.h k))).1) := by
  intro c
  induction c with
  | zero => rfl
  | succ m ih =>
    simp only [scaleLoop, scalesList, List.findSome?_cons]
    rcases hd : (detect_faces cc b
        (cv.resize image (pyRound image.w (m + 1)) (pyRound image.h (m + 1)))).1 with n | _
    · simp only [hd, resultIsNotFalse, if_true, toOption]
    · simp only [hd, resultIsNotFalse, Bool.false_eq_true, if_false]
      exact ih

theorem profileLoop_fst (cv : CV) (cas : CascadeName → Cascade) (b : Bool)
    (image : Image) :
    ∀ l : List CascadeName,
      (profileLoop cv cas b image l).1 =
        l.findSome? (fun p => toOption (scaleLoop cv (cas p) b image 2).1) := by
  intro l
  induction l with
  | nil => rfl
  | cons name rest ih =>
    simp only [profileLoop, List.findSome?_cons]
    rcases hs : (scaleLoop cv (cas name) b image 2).1 with n | _
    · simp only [hs, toOption]
    · simp only [hs, toOption, ih]

end Whatsup

namespace Whatsup

/-! ### Arithmetic facts about the rounded band bounds -/

theorem pyRound_le_self_div3 (h : Nat) : pyRound h 3 ≤ h := by
  unfold pyRound
  split
  · omega
  · split
    · omega
    · split <;> omega

theorem pyRound_two_thirds_le (h : Nat) : pyRound (2 * h) 3 ≤ h := by
  unfold pyRound
  split
  · omega
  · split
    · omega
    · split <;> omega

/-! ### The band slices -/

theorem crop_get (img : Image) (r0 r1 c0 c1 i j : Nat)
    (hi : i < (crop img r0 r1 c0 c1).h) (hj : j < (crop img r0 r1 c0 c1).w) :
    (crop img r0 r1 c0 c1).get i j =
      img.get (min r0 (min r1 img.h) + i) (min c0 (min c1 img.w) + j) := by
  have h1 : i < (crop img r0 r1 c0 c1).h ∧ j < (crop img r0 r1 c0 c1).w := ⟨hi, hj⟩
  have hb : min r0 (min r1 img.h) + i < img.h ∧
      min c0 (min c1 img.w) + j < img.w := by
    simp only [crop] at hi hj
    omega
  unfold Image.get
  rw [dif_pos h1, dif_pos hb]
  rfl

theorem chunk_top_h (img : Image) : (chunkOf img Side.top).h = pyRound img.h 3 := by
  have := pyRound_le_self_div3 img.h
  simp only [chunkOf, crop]
  omega

theorem chunk_top_w (img : Image) : (chunkOf img Side.top).w = img.w := by
  simp only [chunkOf, crop]
  omega

theorem chunk_left_h (img : Image) : (chunkOf img Side.left).h = img.h := by
  simp only [chunkOf, crop]
  omega

theorem chunk_left_w (img : Image) : (chunkOf img Side.left).w = pyRound img.w 3 := by
  have := pyRound_le_self_div3 img.w
  simp only [chunkOf, crop]
  omega

theorem chunk_bottom_h (img : Image) :
    (chunkOf img Side.bottom).h = img.h - pyRound (2 * img.h) 3 := by
  have := pyRound_two_thirds_le img.h
  simp only [chunkOf, crop]
  omega

theorem chunk_bottom_w (img : Image) : (chunkOf img Side.bottom).w = img.w := by
  simp only [chunkOf, crop]
  omega

theorem chunk_right_h (img : Image) : (chunkOf img Side.right).h = img.h := by
  simp only [chunkOf, crop]
  omega

theorem chunk_right_w (img : Image) :
    (chunkOf img Side.right).w = img.w - pyRound (2 * img.w) 3 := by
  have := pyRound_two_thirds_le img.w
  simp only [chunkOf, crop]
  omega

theorem chunk_top_get (img : Image) (i j : Nat)
    (hi : i < (chunkOf img Side.top).h) (hj : j < (chunkOf img Side.top).w) :
    (chunkOf img Side.top).get i j = img.get i j := by
  have := pyRound_le_self_div3 img.h
  simp only [chunkOf] at hi hj ⊢
  rw [crop_get img _ _ _ _ i j hi hj]
  congr 1 <;> omega

theorem chunk_left_get (img : Image) (i j : Nat)
    (hi : i < (chunkOf img Side.left).h) (hj : j < (chunkOf img Side.left).w) :
    (chunkOf img Side.left).get i j = img.get i j := by
  have := pyRound_le_self_div3 img.w
  simp only [chunkOf] at hi hj ⊢
  rw [crop_get img _ _ _ _ i j hi hj]
  congr 1 <;> omega

theorem chunk_bottom_get (img : Image) (i j : Nat)
    (hi : i < (chunkOf img Side.bottom).h) (hj : j < (chunkOf img Side.bottom).w) :
    (chunkOf img Side.bottom).get i j =
      img.get (pyRound (2 * img.h) 3 + i) j := by
  have := pyRound_two_thirds_le img.h
  simp only [chunkOf] at hi hj ⊢
  rw [crop_get img _ _ _ _ i j hi hj]
  congr 1 <;> omega

theorem chunk_right_get (img : Image) (i j : Nat)
    (hi : i < (chunkOf img Side.right).h) (hj : j < (chunkOf img Side.right).w) :
    (chunkOf img Side.right).get i j =
      img.get i (pyRound (2 * img.w) 3 + j) := by
  have := pyRound_two_thirds_le img.w
  simp only [chunkOf] at hi hj ⊢
  rw [crop_get img _ _ _ _ i j hi hj]
  congr 1 <;> omega

/-! ### Python max over the samples dict -/

theorem foldl_pickBrighter_mem (l : List (Side × ℚ)) (a : Side × ℚ) :
    l.foldl pickBrighter a = a ∨ l.foldl pickBrighter a ∈ l := by
  induction l generalizing a with
  | nil => exact Or.inl rfl
  | cons y ys ih =>
    simp only [List.foldl_cons]
    rcases ih (pickBrighter a y) with h | h
    · rw [h]
      unfold pickBrighter
      split
      · exact Or.inr (List.mem_cons_self y ys)
      · exact Or.inl rfl
    · exact Or.inr (List.mem_cons_of_mem y h)

theorem foldl_pickBrighter_le (l : List (Side × ℚ)) (a : Side × ℚ) :
    a.2 ≤ (l.foldl pickBrighter a).2 ∧
      ∀ x ∈ l, x.2 ≤ (l.foldl pickBrighter a).2 := by
  induction l generalizing a with
  | nil => exact ⟨le_refl _, by simp⟩
  | cons y ys ih =>
    simp only [List.foldl_cons]
    obtain ⟨h1, h2⟩ := ih (pickBrighter a y)
    have hstep : a.2 ≤ (pickBrighter a y).2 ∧ y.2 ≤ (pickBrighter a y).2 := by
      unfold pickBrighter
      split
      · rename_i hgt
        exact ⟨le_of_lt hgt, le_refl _⟩
      · rename_i hgt
        simp only [gt_iff_lt, not_lt] at hgt
        exact ⟨le_refl _, hgt⟩
    refine ⟨le_trans hstep.1 h1, ?_⟩
    intro x hx
    rcases List.mem_cons.mp hx with h | h
    · rw [h]
      exact le_trans hstep.2 h1
    · exact h2 x h

end Whatsup

namespace Whatsup

theorem brightestSide_eq_foldl (cv : CV) (img : Image) :
    brightestSide cv img =
      (List.foldl pickBrighter (Side.top, sampleOf cv img Side.top)
        [(Side.left, sampleOf cv img Side.left),
         (Side.bottom, sampleOf cv img Side.bottom),
         (Side.right, sampleOf cv img Side.right)]).1 := rfl

theorem brightestSide_max (cv : CV) (img : Image) :
    ∀ t : Side, sampleOf cv img t ≤ sampleOf cv img (brightestSide cv img) := by
  have hmem := foldl_pickBrighter_mem
    [(Side.left, sampleOf cv img Side.left),
     (Side.bottom, sampleOf cv img Side.bottom),
     (Side.right, sampleOf cv img Side.right)]
    (Side.top, sampleOf cv img Side.top)
  have hle := foldl_pickBrighter_le
    [(Side.left, sampleOf cv img Side.left),
     (Side.bottom, sampleOf cv img Side.bottom),
     (Side.right, sampleOf cv img Side.right)]
    (Side.top, sampleOf cv img Side.top)
  set R := List.foldl pickBrighter (Side.top, sampleOf cv img Side.top)
    [(Side.left, sampleOf cv img Side.left),
     (Side.bottom, sampleOf cv img Side.bottom),
     (Side.right, sampleOf cv img Side.right)] with hRdef
  have hR2 : R.2 = sampleOf cv img R.1 := by
    rcases hmem with h | h
    · rw [h]
    · simp only [List.mem_cons, List.not_mem_nil, or_false] at h
      rcases h with h | h | h <;> rw [h]
  intro t
  rw [brightestSide_eq_foldl, ← hRdef, ← hR2]
  cases t with
  | top => exact hle.1
  | left => exact hle.2 (Side.left, sampleOf cv img Side.left) (by simp)
  | bottom => exact hle.2 (Side.bottom, sampleOf cv img Side.bottom) (by simp)
  | right => exact hle.2 (Side.right, sampleOf cv img Side.right) (by simp)

theorem rotationMap_cases (s : Side) :
    rotationMap s = 0 ∨ rotationMap s = 90 ∨ rotationMap s = 180 ∨
      rotationMap s = 270 := by
  cases s <;> simp [rotationMap]

theorem scalesList_two : scalesList 2 = [2, 1] := rfl

/-! ### Claim theorems -/

/-- C1: for every image and detector profile, `detect_faces` tries
rotation offsets 0, 1, 2, 3 in order, invoking the detector exactly once
per offset on the image rotated that many times 90° clockwise; at the
first offset `j` where the detector reports a detection it returns
`j * 90` (having made `j + 1` detector calls), and if all four offsets
fail it reports the no-result sentinel after exactly 4 calls. -/
theorem whatsup_C1 (cc : Cascade) (b : Bool) (img : Image) (j : Nat) :
    ((∀ i, i < 4 → cc (rotIter i img) (Nat.sqrt (img.h * img.w) / 20)
        (Nat.sqrt (img.h * img.w) / 2) b = 0) →
      detect_faces cc b img = (DetectResult.noResult, 4)) ∧
    (j < 4 →
      (∀ i, i < j → cc (rotIter i img) (Nat.sqrt (img.h * img.w) / 20)
        (Nat.sqrt (img.h * img.w) / 2) b = 0) →
      0 < cc (rotIter j img) (Nat.sqrt (img.h * img.w) / 20)
        (Nat.sqrt (img.h * img.w) / 2) b →
      detect_faces cc b img = (DetectResult.rotation (j * 90), j + 1)) := by
  constructor
  · intro h
    exact detectLoop_allFail cc b _ _ 4 0 img h
  · intro hj hfail hsucc
    have h := detectLoop_firstSuccess cc b _ _ 4 0 img j hj hfail hsucc
    simpa using h

/-- Witness for C1: on a 2 × 2 image whose bright corner becomes the
bottom-right pixel after exactly two clockwise rotations, the search
reports 180 degrees after 3 detector calls; with a detector that never
fires it reports the sentinel after 4 calls. -/
theorem whatsup_C1_witness :
    detect_faces ccCorner true imgCorner = (DetectResult.rotation 180, 3) ∧
    detect_faces ccNever true imgCorner = (DetectResult.noResult, 4) := by
  constructor
  · have h := (whatsup_C1 ccCorner true imgCorner 2).2 (by decide) (by decide)
      (by decide)
    simpa using h
  · exact (whatsup_C1 ccNever true imgCorner 0).1 (by decide)

/-- C6: if the rotation search on an image pre-rotated by `k` clockwise
quarter turns reports a detection at offset `j`, then rotating the
original image clockwise by `((j + k) mod 4) * 90` degrees produces an
image on which the detector fires immediately, so the search on it
reports 0 degrees at once — the true required rotation of the original
is `((j + k) mod 4) * 90`. -/
theorem whatsup_C6 (cc : Cascade) (b : Bool) (img : Image) (k j : Nat)
    (hj : j < 4)
    (h : (detect_faces cc b (rotIter k img)).1 = DetectResult.rotation (j * 90)) :
    0 < cc (rotIter ((j + k) % 4) img) (Nat.sqrt (img.h * img.w) / 20)
      (Nat.sqrt (img.h * img.w) / 2) b ∧
    detect_faces cc b (rotIter ((j + k) % 4) img) = (DetectResult.rotation 0, 1) := by
  unfold detect_faces at h ⊢
  rw [rotIter_size] at h
  rw [rotIter_size]
  obtain ⟨t, ht, hr, hcnt, hpos, hfail⟩ :=
    detectLoop_rotation cc b (Nat.sqrt (img.h * img.w) / 20)
      (Nat.sqrt (img.h * img.w) / 2) 4 0 (rotIter k img) (j * 90) _ (Prod.ext h rfl)
  have htj : t = j := by omega
  rw [htj] at hpos
  have hcomp : rotIter j (rotIter k img) = rotIter ((j + k) % 4) img := by
    rw [← rotIter_add]
    exact rotIter_mod (j + k) img
  rw [hcomp] at hpos
  refine ⟨hpos, ?_⟩
  have hfs := detectLoop_firstSuccess cc b (Nat.sqrt (img.h * img.w) / 20)
    (Nat.sqrt (img.h * img.w) / 2) 4 0 (rotIter ((j + k) % 4) img) 0 (by omega)
    (fun i hi => absurd hi (by omega)) hpos
  simpa using hfs

/-- Witness for C6: on the corner image pre-rotated once, the search
reports offset 1 (90 degrees), and rotating the original by
`(1 + 1) mod 4 = 2` quarter turns makes the detector fire at once. -/
theorem whatsup_C6_witness :
    0 < ccCorner (rotIter ((1 + 1) % 4) imgCorner)
      (Nat.sqrt (imgCorner.h * imgCorner.w) / 20)
      (Nat.sqrt (imgCorner.h * imgCorner.w) / 2) true ∧
    detect_faces ccCorner true (rotIter ((1 + 1) % 4) imgCorner) =
      (DetectResult.rotation 0, 1) :=
  whatsup_C6 ccCorner true imgCorner 1 1 (by decide) (by decide)

/-- C9: the no-result sentinel (Python `False`) is a value distinct from
the legitimate answer `rotation 0`; the `is not False` identity test of
`try_detect` accepts `rotation 0` and rejects only the sentinel; hence a
detection at offset 0 on the very first attempt (first profile, half
scale) propagates the integer 0 as the final answer rather than falling
through to the brightness fallback. -/
theorem whatsup_C9 (cv : CV) (cas : CascadeName → Cascade) (b : Bool)
    (img : Image) :
    DetectResult.rotation 0 ≠ DetectResult.noResult ∧
    resultIsNotFalse (DetectResult.rotation 0) = true ∧
    resultIsNotFalse DetectResult.noResult = false ∧
    ((detect_faces (cas CascadeName.profileface) b
        (cv.resize (preprocess cv img) (pyRound (preprocess cv img).w 2)
          (pyRound (preprocess cv img).h 2))).1 = DetectResult.rotation 0 →
      (try_detect cv cas b img).1 = 0) := by
  refine ⟨by simp, rfl, rfl, ?_⟩
  intro h
  have h2 : toOption (scaleLoop cv (cas CascadeName.profileface) b
      (preprocess cv img) 2).1 = some 0 := by
    rw [scaleLoop_fst, scalesList_two]
    simp only [List.findSome?_cons, h, toOption]
  have hp : (profileLoop cv cas b (preprocess cv img) CASCADES_TO_USE).1 =
      some 0 := by
    rw [profileLoop_fst]
    simp only [CASCADES_TO_USE, List.findSome?_cons, h2]
  simp only [try_detect, hp]

/-- Witness for C9: with an always-firing detector the first attempt
succeeds at offset 0 and the program answer is the integer 0. -/
theorem whatsup_C9_witness :
    resultIsNotFalse (DetectResult.rotation 0) = true ∧
    (try_detect cvId casFire true imgUniform).1 = 0 :=
  ⟨(whatsup_C9 cvId casFire true imgUniform).2.1,
   (whatsup_C9 cvId casFire true imgUniform).2.2.2 (by decide)⟩

end Whatsup

namespace Whatsup

theorem attempt_flatten (cv : CV) (cas : CascadeName → Cascade) (b : Bool)
    (image : Image) :
    attemptOrder.findSome? (fun pc =>
      toOption (detect_faces (cas pc.1) b
        (cv.resize image (pyRound image.w pc.2) (pyRound image.h pc.2))).1) =
    CASCADES_TO_USE.findSome? (fun p =>
      (scalesList 2).findSome? (fun k =>
        toOption (detect_faces (cas p) b
          (cv.resize image (pyRound image.w k) (pyRound image.h k))).1)) := by
  simp only [attemptOrder, CASCADES_TO_USE, scalesList_two, List.findSome?_cons,
    List.findSome?_nil]
  rcases (detect_faces (cas CascadeName.profileface) b
      (cv.resize image (pyRound image.w 2) (pyRound image.h 2))).1 with n | _ <;>
    simp only [toOption] <;>
  rcases (detect_faces (cas CascadeName.profileface) b
      (cv.resize image (pyRound image.w 1) (pyRound image.h 1))).1 with n | _ <;>
    simp only [toOption] <;>
  rcases (detect_faces (cas CascadeName.fullbody) b
      (cv.resize image (pyRound image.w 2) (pyRound image.h 2))).1 with n | _ <;>
    simp only [toOption] <;>
  rcases (detect_faces (cas CascadeName.fullbody) b
      (cv.resize image (pyRound image.w 1) (pyRound image.h 1))).1 with n | _ <;>
    simp only [toOption] <;>
  rcases (detect_faces (cas CascadeName.frontalface_alt) b
      (cv.resize image (pyRound image.w 2) (pyRound image.h 2))).1 with n | _ <;>
    simp only [toOption] <;>
  rcases (detect_faces (cas CascadeName.frontalface_alt) b
      (cv.resize image (pyRound image.w 1) (pyRound image.h 1))).1 with n | _ <;>
    simp only [toOption] <;>
  rcases (detect_faces (cas CascadeName.frontalface_default) b
      (cv.resize image (pyRound image.w 2) (pyRound image.h 2))).1 with n | _ <;>
    simp only [toOption] <;>
  rcases (detect_faces (cas CascadeName.frontalface_default) b
      (cv.resize image (pyRound image.w 1) (pyRound image.h 1))).1 with n | _ <;>
    simp only [toOption]

/-- C2: the nested loops of `try_detect` are exactly a first-success
search over the flat priority order: profiles in the fixed order
profile-face, full-body, frontal-face-alt, frontal-face-default, each
with scale counter 2 (image resized by `cv2.resize` to
`(round(w/2), round(h/2))`) and then 1 (full resolution), the first
reported result terminating the entire search; on exhaustion the
brightness fallback decides. -/
theorem whatsup_C2 (cv : CV) (cas : CascadeName → Cascade) (b : Bool)
    (img : Image) :
    (try_detect cv cas b img).1 = try_detect_spec cv cas b img := by
  have hp : (profileLoop cv cas b (preprocess cv img) CASCADES_TO_USE).1 =
      attemptOrder.findSome? (fun pc =>
        toOption (detect_faces (cas pc.1) b
          (cv.resize (preprocess cv img) (pyRound (preprocess cv img).w pc.2)
            (pyRound (preprocess cv img).h pc.2))).1) := by
    rw [profileLoop_fst, attempt_flatten]
    congr 1
    funext p
    rw [scaleLoop_fst]
  simp only [try_detect, try_detect_spec]
  rw [hp]
  rcases hv : attemptOrder.findSome? (fun pc =>
      toOption (detect_faces (cas pc.1) b
        (cv.resize (preprocess cv img) (pyRound (preprocess cv img).w pc.2)
          (pyRound (preprocess cv img).h pc.2))).1) with _ | n <;>
    simp [hv]

/-- C5: the search always makes at most `4 profiles × 2 scales × 4
rotations = 32` detector invocations, and with a detector stubbed to
always return the empty sequence it makes exactly 32 and the answer is
produced solely by the brightness fallback. -/
theorem whatsup_C5 (cv : CV) (cas : CascadeName → Cascade) (b : Bool)
    (img : Image) :
    (try_detect cv cas b img).2 ≤ 32 ∧
    ((∀ p im mn mx bb, cas p im mn mx bb = 0) →
      (try_detect cv cas b img).2 = 32 ∧
      (try_detect cv cas b img).1 =
        detect_brightest_side cv (preprocess cv img)) := by
  constructor
  · rw [try_detect_count]
    have h := profileLoop_count_le cv cas b (preprocess cv img) CASCADES_TO_USE
    simpa [CASCADES_TO_USE] using h
  · intro h
    have hp := profileLoop_stub cv cas b (preprocess cv img) h CASCADES_TO_USE
    constructor
    · rw [try_detect_count, hp]
      simp [CASCADES_TO_USE]
    · simp only [try_detect, hp]

/-- Witness for C5: with the stub detector the counter reaches exactly
32 and the answer comes from the fallback on the preprocessed image. -/
theorem whatsup_C5_witness :
    (try_detect cvId casStub true imgUniform).2 = 32 ∧
    (try_detect cvId casStub true imgUniform).1 =
      detect_brightest_side cvId (preprocess cvId imgUniform) :=
  (whatsup_C5 cvId casStub true imgUniform).2 (fun _ _ _ _ _ => rfl)

/-- C3 (amended): when every profile, scale and rotation yields no
detection, the brightness fallback is invoked on the unrotated,
full-resolution, *preprocessed* detection copy (contrast-scaled,
grayscale, histogram-equalized) — not on the original color image. -/
theorem whatsup_C3 (cv : CV) (cas : CascadeName → Cascade) (b : Bool)
    (img : Image) (h : ∀ p im mn mx bb, cas p im mn mx bb = 0) :
    (try_detect cv cas b img).1 =
      detect_brightest_side cv (preprocess cv img) := by
  have hp := profileLoop_stub cv cas b (preprocess cv img) h CASCADES_TO_USE
  simp only [try_detect, hp]

/-- Witness for C3's amended theorem, at the concrete darkening
preprocessing instance. -/
theorem whatsup_C3_witness :
    (try_detect cvDark casStub true imgBottomBright).1 =
      detect_brightest_side cvDark (preprocess cvDark imgBottomBright) :=
  whatsup_C3 cvDark casStub true imgBottomBright (fun _ _ _ _ _ => rfl)

/-- Counterexample to C3 as claimed: with a preprocessing pipeline whose
histogram equalization darkens the image, the program answer under an
exhausted detector (0, the fallback on the preprocessed copy) differs
from the fallback applied to the original image (180, its bottom band is
brightest) — so the fallback is not invoked on the original image. -/
theorem whatsup_C3_counterexample :
    (try_detect cvDark casStub true imgBottomBright).1 ≠
      detect_brightest_side cvDark imgBottomBright := by decide

end Whatsup

namespace Whatsup

theorem detect_faces_rotation_val (cc : Cascade) (b : Bool) (im : Image)
    (r c : Nat) (h : detect_faces cc b im = (DetectResult.rotation r, c)) :
    r = 0 ∨ r = 90 ∨ r = 180 ∨ r = 270 := by
  obtain ⟨t, ht, hr, _, _, _⟩ := detectLoop_rotation cc b _ _ 4 0 im r c h
  interval_cases t <;> omega

theorem scaleLoop_rotation_val (cv : CV) (cc : Cascade) (b : Bool)
    (image : Image) :
    ∀ c r, (scaleLoop cv cc b image c).1 = DetectResult.rotation r →
      r = 0 ∨ r = 90 ∨ r = 180 ∨ r = 270 := by
  intro c
  induction c with
  | zero => intro r h; simp [scaleLoop] at h
  | succ m ih =>
    intro r h
    simp only [scaleLoop] at h
    rcases hd : detect_faces cc b
        (cv.resize image (pyRound image.w (m + 1)) (pyRound image.h (m + 1)))
      with ⟨dr, dc⟩
    rw [hd] at h
    cases dr with
    | rotation n =>
      simp only [resultIsNotFalse, if_true] at h
      have hn : n = r := by simpa using h
      subst hn
      exact detect_faces_rotation_val cc b _ n dc hd
    | noResult =>
      simp only [resultIsNotFalse, Bool.false_eq_true, if_false] at h
      exact ih r (by simpa using h)

theorem profileLoop_rotation_val (cv : CV) (cas : CascadeName → Cascade)
    (b : Bool) (image : Image) :
    ∀ (l : List CascadeName) n, (profileLoop cv cas b image l).1 = some n →
      n = 0 ∨ n = 90 ∨ n = 180 ∨ n = 270 := by
  intro l
  induction l with
  | nil => intro n h; simp [profileLoop] at h
  | cons name rest ih =>
    intro n h
    simp only [profileLoop] at h
    rcases hs : (scaleLoop cv (cas name) b image 2).1 with m | _
    · rw [hs] at h
      simp only at h
      have hm : m = n := by simpa using h
      subst hm
      exact scaleLoop_rotation_val cv (cas name) b image 2 m hs
    · rw [hs] at h
      simp only at h
      exact ih n (by simpa using h)

/-- C7: the top-level search is total and its answer is always one of
0, 90, 180 or 270 — a detection success reports a multiple of 90 below
360, and on exhaustion the brightness fallback always returns one of the
four table values, so the no-result branch of the whole pipeline is
unreachable. -/
theorem whatsup_C7 (cv : CV) (cas : CascadeName → Cascade) (b : Bool)
    (img : Image) :
    (try_detect cv cas b img).1 = 0 ∨ (try_detect cv cas b img).1 = 90 ∨
    (try_detect cv cas b img).1 = 180 ∨ (try_detect cv cas b img).1 = 270 := by
  rcases hr : (profileLoop cv cas b (preprocess cv img) CASCADES_TO_USE).1
    with _ | n
  · have he : (try_detect cv cas b img).1 =
        detect_brightest_side cv (preprocess cv img) := by
      simp only [try_detect, hr]
    rw [he]
    unfold detect_brightest_side
    exact rotationMap_cases _
  · have he : (try_detect cv cas b img).1 = n := by
      simp only [try_detect, hr]
    rw [he]
    exact profileLoop_rotation_val cv cas b _ CASCADES_TO_USE n hr

/-- C4: the brightness fallback computes the four overlapping bands of
ratio 3 exactly as sliced in the source — top rows `[0, round(h/3))` at
full width, left columns `[0, round(w/3))` at full height, bottom rows
`[round(2h/3), h)` at full width, right columns `[round(2w/3), w)` at
full height — samples each by resize-to-5×5, 5×5 blur and mean, selects
a band whose sample is maximal, and maps it through the fixed table
top 0, left 90, bottom 180, right 270. -/
theorem whatsup_C4 (cv : CV) (img : Image) :
    detect_brightest_side cv img = rotationMap (brightestSide cv img) ∧
    (∀ t : Side, sampleOf cv img t ≤ sampleOf cv img (brightestSide cv img)) ∧
    (chunkOf img Side.top).h = pyRound img.h 3 ∧
    (chunkOf img Side.top).w = img.w ∧
    (chunkOf img Side.left).h = img.h ∧
    (chunkOf img Side.left).w = pyRound img.w 3 ∧
    (chunkOf img Side.bottom).h = img.h - pyRound (2 * img.h) 3 ∧
    (chunkOf img Side.bottom).w = img.w ∧
    (chunkOf img Side.right).h = img.h ∧
    (chunkOf img Side.right).w = img.w - pyRound (2 * img.w) 3 ∧
    (∀ i j, i < (chunkOf img Side.top).h → j < (chunkOf img Side.top).w →
      (chunkOf img Side.top).get i j = img.get i j) ∧
    (∀ i j, i < (chunkOf img Side.left).h → j < (chunkOf img Side.left).w →
      (chunkOf img Side.left).get i j = img.get i j) ∧
    (∀ i j, i < (chunkOf img Side.bottom).h → j < (chunkOf img Side.bottom).w →
      (chunkOf img Side.bottom).get i j = img.get (pyRound (2 * img.h) 3 + i) j) ∧
    (∀ i j, i < (chunkOf img Side.right).h → j < (chunkOf img Side.right).w →
      (chunkOf img Side.right).get i j = img.get i (pyRound (2 * img.w) 3 + j)) ∧
    rotationMap Side.top = 0 ∧ rotationMap Side.left = 90 ∧
    rotationMap Side.bottom = 180 ∧ rotationMap Side.right = 270 :=
  ⟨rfl, brightestSide_max cv img, chunk_top_h img, chunk_top_w img,
   chunk_left_h img, chunk_left_w img, chunk_bottom_h img, chunk_bottom_w img,
   chunk_right_h img, chunk_right_w img,
   fun i j hi hj => chunk_top_get img i j hi hj,
   fun i j hi hj => chunk_left_get img i j hi hj,
   fun i j hi hj => chunk_bottom_get img i j hi hj,
   fun i j hi hj => chunk_right_get img i j hi hj,
   rfl, rfl, rfl, rfl⟩

/-- Witness for C4: instantiated on a concrete image whose bottom band
is brightest, the winning band's sample dominates the top band's sample
and the bottom chunk reads the source image offset by `round(2h/3)`
rows. -/
theorem whatsup_C4_witness :
    sampleOf cvId imgBottomBright Side.top ≤
      sampleOf cvId imgBottomBright (brightestSide cvId imgBottomBright) ∧
    (chunkOf imgBottomBright Side.bottom).get 0 0 =
      imgBottomBright.get (pyRound (2 * imgBottomBright.h) 3 + 0) 0 := by
  obtain ⟨-, hmax, -, -, -, -, -, -, -, -, -, -, hbg, -⟩ :=
    whatsup_C4 cvId imgBottomBright
  exact ⟨hmax Side.top, hbg 0 0 (by decide) (by decide)⟩

/-- C8: the brightness fallback is a deterministic function, and on an
image whose four band samples are all equal, Python's `max` over the
insertion-ordered dict keeps the first band — top — so the result is 0
degrees. -/
theorem whatsup_C8 (cv : CV) (img : Image)
    (h1 : sampleOf cv img Side.left = sampleOf cv img Side.top)
    (h2 : sampleOf cv img Side.bottom = sampleOf cv img Side.top)
    (h3 : sampleOf cv img Side.right = sampleOf cv img Side.top) :
    detect_brightest_side cv img = 0 := by
  unfold detect_brightest_side
  rw [brightestSide_eq_foldl, h1, h2, h3]
  simp [List.foldl_cons, List.foldl_nil, pickBrighter, rotationMap]

/-- Witness for C8: the uniformly bright image has equal band samples
and yields 0. -/
theorem whatsup_C8_witness : detect_brightest_side cvId imgUniform = 0 :=
  whatsup_C8 cvId imgUniform (by decide) (by decide) (by decide)

/-- C10: invoked with an argument count other than exactly one filename
the script reports a usage error with a non-zero exit status and never
invokes the core; with a filename that is not an existing file it
reports a not-found error with a non-zero exit status and never invokes
the core; otherwise the core runs and its answer is printed. -/
theorem whatsup_C10 {A : Type} (argv : List A) (isFile : A → Bool)
    (core core2 : A → Nat) :
    (argv.length ≠ 2 →
      main_script argv isFile core = MainOutcome.usageError ∧
      exitCode (main_script argv isFile core) ≠ 0 ∧
      main_script argv isFile core = main_script argv isFile core2) ∧
    (∀ a p, argv = [a, p] → isFile p = false →
      main_script argv isFile core = MainOutcome.fileNotFound p ∧
      exitCode (main_script argv isFile core) ≠ 0 ∧
      main_script argv isFile core = main_script argv isFile core2) ∧
    (∀ a p, argv = [a, p] → isFile p = true →
      main_script argv isFile core = MainOutcome.output (core p)) := by
  refine ⟨?_, ?_, ?_⟩
  · intro hlen
    rcases argv with _ | ⟨a, _ | ⟨p, _ | ⟨q, t⟩⟩⟩
    · exact ⟨rfl, by show (-1 : Int) ≠ 0; decide, rfl⟩
    · exact ⟨rfl, by show (-1 : Int) ≠ 0; decide, rfl⟩
    · exact absurd (by simp) hlen
    · exact ⟨rfl, by show (-1 : Int) ≠ 0; decide, rfl⟩
  · intro a p ha hf
    subst ha
    refine ⟨by simp [main_script, hf], ?_, by simp [main_script, hf]⟩
    simp only [main_script, hf, Bool.false_eq_true, if_false, exitCode]
    decide
  · intro a p ha hf
    subst ha
    simp [main_script, hf]

/-- Witness for C10 over a concrete argument vector: one argument is a
usage error, a missing file is a not-found error, and a present file
runs the core. -/
theorem whatsup_C10_witness :
    main_script ([0] : List Nat) (fun _ => true) (fun _ => 7) =
      MainOutcome.usageError ∧
    main_script ([0, 1] : List Nat) (fun _ => false) (fun _ => 7) =
      MainOutcome.fileNotFound 1 ∧
    main_script ([0, 1] : List Nat) (fun _ => true) (fun _ => 7) =
      MainOutcome.output 7 := by
  refine ⟨?_, ?_, ?_⟩
  · exact ((whatsup_C10 [0] (fun _ => true) (fun _ => 7) (fun _ => 7)).1
      (by decide)).1
  · exact ((whatsup_C10 [0, 1] (fun _ => false) (fun _ => 7)
      (fun _ => 7)).2.1 0 1 rfl rfl).1
  · exact (whatsup_C10 [0, 1] (fun _ => true) (fun _ => 7)
      (fun _ => 7)).2.2 0 1 rfl rfl

end Whatsup
